import Mathlib

/-!
Verification of the Contact Reprojection Filter implemented in
`FormatCSV.py` of the two project directories
`Project_ScrubAndMigrateContacts_KWCommand-to-AMCards` (version 1.0,
a plain script; called version A below) and
`Project_ScrubMigrateContacts_KWCommand-to-AMCards` (version 1.2, the
form front-end whose core is `format_csv_file`; called version B below).

The row-filtering and reprojection core of both versions is the same
loop; they differ only in the tuple constant `attrdict_required`
(version A also lists `Address line 2`) and in version B's
`logger.info` calls.  A Python `dict` row produced by `csv.DictReader`
is embedded as an association list of string pairs; the `row[attr]`
subscript is embedded as `dictGet`, which returns `Except.error attr`
where Python raises `KeyError` (version A would crash there, version
B's bare `except` turns it into a failed run).  The `None` fill value
that `DictReader` uses for short rows is represented by the empty
string, which has the same truthiness in every test the code performs.
-/

/-- A Python dict row as produced by `csv.DictReader`: an association
list from field name to value; lookup takes the first matching key. -/
abbrev Row := List (String × String)

/-- Embedding of the Python subscript `row[attr]`: the value when the
key is present, `Except.error attr` for the `KeyError` raised when the
key is absent from the mapping. -/
def dictGet (row : Row) (k : String) : Except String String :=
  match row.find? (fun p => p.1 == k) with
  | some p => Except.ok p.2
  | none => Except.error k

/-- Spec-side total lookup: the value of a field, the empty string when
the field is absent (the spec's "missing key is treated identically to
an empty value"). -/
def specGet (row : Row) (k : String) : String :=
  match row.find? (fun p => p.1 == k) with
  | some p => p.2
  | none => ""

/-- Effectful map over a list, stopping at the first error: the order
in which the Python `for` loops perform their `row[attr]` lookups. -/
def mapME {α β : Type} (f : α → Except String β) : List α → Except String (List β)
  | [] => Except.ok []
  | a :: as =>
    match f a with
    | Except.error e => Except.error e
    | Except.ok v =>
      match mapME f as with
      | Except.error e => Except.error e
      | Except.ok vs => Except.ok (v :: vs)

/-! Attribute-name constants, from the top of version A and the
`__main__` block of version B (identical in both). -/

def attr_firstname : String := "First Name"
def attr_lastname : String := "Last Name"
def attr_birthday : String := "Birthday"
def attr_anniversary : String := "Home Anniversary"
def attr_address1 : String := "Address line 1"
def attr_address2 : String := "Address line 2"
def attr_city : String := "City"
def attr_state : String := "State"
def attr_country : String := "Country"
def attr_zip : String := "Zip code"

/-- The full output schema `attrdict`, identical in both versions. -/
def attrdict : List String :=
  [attr_firstname, attr_lastname, attr_birthday, attr_anniversary,
   attr_address1, attr_address2, attr_city, attr_state,
   attr_zip, attr_country]

namespace ScrubAndMigrate

/-- `attrdict_required` of version A (lines 63-64): note that it
contains `attr_address2`. -/
def attrdict_required : List String :=
  [attr_firstname, attr_lastname, attr_address1, attr_address2,
   attr_city, attr_state, attr_zip, attr_country]

end ScrubAndMigrate

namespace ScrubMigrate

/-- `attrdict_required` of version B (lines 400-401): seven fields,
without `Address line 2`. -/
def attrdict_required : List String :=
  [attr_firstname, attr_lastname, attr_address1,
   attr_city, attr_state, attr_zip, attr_country]

end ScrubMigrate

/-- `attrdict_eitherOr`, identical in both versions. -/
def attrdict_eitherOr : List String := [attr_birthday, attr_anniversary]

/-- The `newVal` accumulation loop used for the header (STEP 2) and for
each formatted contact: start from the empty string, and for each value
append `"," + v` when the accumulator is truthy (non-empty), otherwise
replace the accumulator by the value. -/
def pyJoin (vals : List String) : String :=
  vals.foldl (fun newVal v => if newVal != "" then newVal ++ "," ++ v else v) ""

/-- Plain comma join, used to state what `pyJoin` produces when the
first value is non-empty. -/
def commaJoin : List String → String
  | [] => ""
  | [v] => v
  | v :: vs => v ++ "," ++ commaJoin vs

/-- STEP 2: the header line written to the edited file, `pyJoin` over
`attrdict`. -/
def headerLine : String := pyJoin attrdict

/-- The per-row inclusion decision of STEP 3: `formatBOOL` starts true
and every required attribute is looked up and tested for truthiness;
only when all are non-empty are the either-or attributes looked up, and
the row is accepted when at least one of them is non-empty.  An
`Except.error` is a `KeyError` escaping the loop. -/
def rowDecision (required eitherOr : List String) (row : Row) : Except String Bool :=
  match mapME (dictGet row) required with
  | Except.error e => Except.error e
  | Except.ok reqVals =>
    if reqVals.all (fun v => v != "") then
      match mapME (dictGet row) eitherOr with
      | Except.error e => Except.error e
      | Except.ok dateVals => Except.ok (dateVals.any (fun v => v != ""))
    else
      Except.ok false

/-- The values `row[attr]` for `attr in attrdict`, in `attrdict` order,
as looked up by the formatted-contact loop. -/
def outRecord (row : Row) : Except String (List String) :=
  mapME (dictGet row) attrdict

/-- The line written for a formatted contact: `pyJoin` of the
`attrdict` values of the row. -/
def projectRow (row : Row) : Except String String :=
  match outRecord row with
  | Except.error e => Except.error e
  | Except.ok vals => Except.ok (pyJoin vals)

/-- The display identity appended to `contacts_formatted` or
`contacts_skipped`: the f-string of first and last name. -/
def displayName (row : Row) : Except String String :=
  match dictGet row attr_firstname with
  | Except.error e => Except.error e
  | Except.ok fn =>
    match dictGet row attr_lastname with
    | Except.error e => Except.error e
    | Except.ok ln => Except.ok (fn ++ " " ++ ln)

/-- The kinds of `logger.info` message version B emits while deciding a
row (the trailing `- {row}` dict dump of each f-string is elided):
`missing attr` for "SKIPPING CONTACT: Missing {attr}", `dateFound attr`
for "FORMATTING CONTACT: At least one date found ({attr})", `noDates`
for "SKIPPING CONTACT: No dates found". -/
inductive LogMsg where
  | missing (attr : String)
  | dateFound (attr : String)
  | noDates
deriving DecidableEq

/-- The `logger.info` messages version B emits for one row, in emission
order: one `missing` per empty required attribute (inside the required
loop), then, only when all required attributes are non-empty, one
`dateFound` per non-empty either-or attribute, and `noDates` when none
was found. -/
def rowLogs (required eitherOr : List String) (row : Row) : Except String (List LogMsg) :=
  match mapME (dictGet row) required with
  | Except.error e => Except.error e
  | Except.ok reqVals =>
    let missingMsgs := (required.zip reqVals).filterMap
      (fun p => if p.2 == "" then some (LogMsg.missing p.1) else none)
    if reqVals.all (fun v => v != "") then
      match mapME (dictGet row) eitherOr with
      | Except.error e => Except.error e
      | Except.ok dateVals =>
        let dateMsgs := (eitherOr.zip dateVals).filterMap
          (fun p => if p.2 != "" then some (LogMsg.dateFound p.1) else none)
        if dateVals.any (fun v => v != "") then
          Except.ok (missingMsgs ++ dateMsgs)
        else
          Except.ok (missingMsgs ++ dateMsgs ++ [LogMsg.noDates])
    else
      Except.ok missingMsgs

/-- What one iteration of the row loop contributes: a formatted contact
(display name and the line appended to the edited file) or a skipped
contact (display name only). -/
inductive RowOutcome where
  | formatted (name : String) (line : String)
  | skipped (name : String)
deriving DecidableEq

/-- One iteration of the STEP 3 row loop, in source order: decide the
row, then for an accepted row build `newVal` over `attrdict` and read
the two name fields, for a rejected row read the two name fields. -/
def processRow (required eitherOr : List String) (row : Row) : Except String RowOutcome :=
  match rowDecision required eitherOr row with
  | Except.error e => Except.error e
  | Except.ok true =>
    match projectRow row with
    | Except.error e => Except.error e
    | Except.ok line =>
      match displayName row with
      | Except.error e => Except.error e
      | Except.ok name => Except.ok (RowOutcome.formatted name line)
  | Except.ok false =>
    match displayName row with
    | Except.error e => Except.error e
    | Except.ok name => Except.ok (RowOutcome.skipped name)

/-- The log values collected across the run: the counters
`num_contacts_orig`, `num_contacts_formatted`, `num_contacts_skipped`,
the lists `contacts_formatted` and `contacts_skipped`, and the data
lines appended to the edited file. -/
structure RunResult where
  num_contacts_orig : Nat
  num_contacts_formatted : Nat
  num_contacts_skipped : Nat
  contacts_formatted : List String
  contacts_skipped : List String
  outLines : List String
deriving DecidableEq

/-- The zero-initialised log values at the start of a run. -/
def initResult : RunResult :=
  { num_contacts_orig := 0, num_contacts_formatted := 0, num_contacts_skipped := 0,
    contacts_formatted := [], contacts_skipped := [], outLines := [] }

/-- The STEP 3 row loop over the remaining rows, threading the log
values: `num_contacts_orig` is incremented for every row, and the row's
outcome updates exactly one of the formatted/skipped counter-list
pairs. -/
def runRows (required eitherOr : List String) (acc : RunResult) : List Row → Except String RunResult
  | [] => Except.ok acc
  | row :: rows =>
    let acc1 := { acc with num_contacts_orig := acc.num_contacts_orig + 1 }
    match processRow required eitherOr row with
    | Except.error e => Except.error e
    | Except.ok (RowOutcome.formatted name line) =>
      runRows required eitherOr
        { acc1 with num_contacts_formatted := acc1.num_contacts_formatted + 1,
                    contacts_formatted := acc1.contacts_formatted ++ [name],
                    outLines := acc1.outLines ++ [line] } rows
    | Except.ok (RowOutcome.skipped name) =>
      runRows required eitherOr
        { acc1 with num_contacts_skipped := acc1.num_contacts_skipped + 1,
                    contacts_skipped := acc1.contacts_skipped ++ [name] } rows

/-- A whole run of the STEP 3 loop from freshly reset log values. -/
def runModel (required eitherOr : List String) (rows : List Row) : Except String RunResult :=
  runRows required eitherOr initResult rows

/-- Boolean test that `sub` is a prefix of `l`. -/
def charsHavePre (sub : List Char) (l : List Char) : Bool :=
  match sub, l with
  | [], _ => true
  | _ :: _, [] => false
  | a :: as, b :: bs => a == b && charsHavePre as bs

/-- Boolean test that `sub` occurs as a contiguous run inside `l`. -/
def charsHaveSub (sub : List Char) : List Char → Bool
  | [] => charsHavePre sub []
  | l@(_ :: rest) => charsHavePre sub l || charsHaveSub sub rest

/-- Embedding of the Python substring test `sub in line`. -/
def strContains (line sub : String) : Bool :=
  charsHaveSub sub.toList line.toList

/-- STEP 1: the original file is rewritten in place, keeping exactly
the lines in which neither "Key Dates" nor "Select Y if applies"
occurs. -/
def step1Filter (lines : List String) : List String :=
  lines.filter (fun line =>
    !(strContains line "Key Dates") && !(strContains line "Select Y if applies"))

/-! Spec-side predicates, phrased from the spec's own words. -/

/-- Spec: a record is mandatory-complete iff every field in the
mandatory set maps to a non-empty string in that row (missing key
treated as empty). -/
def mandatoryComplete (required : List String) (row : Row) : Prop :=
  ∀ a ∈ required, specGet row a ≠ ""

/-- Spec: a record is date-qualified iff at least one field of the
at-least-one set is non-empty in that row. -/
def dateQualified (eitherOr : List String) (row : Row) : Prop :=
  ∃ a ∈ eitherOr, specGet row a ≠ ""

/-! Concrete rows used as witnesses and counterexamples; `exRow` is the
example row of the spec's Testable Properties section. -/

/-- The spec's example row: all seven spec-mandatory fields filled,
`Address line 2` and `Birthday` empty, `Home Anniversary` set. -/
def exRow : Row :=
  [("First Name", "Jo"), ("Last Name", "Lee"), ("Birthday", ""),
   ("Home Anniversary", "2020-01-01"), ("Address line 1", "1 Ave"),
   ("Address line 2", ""), ("City", "X"), ("State", "Y"),
   ("Zip code", "1"), ("Country", "Z")]

/-- `exRow` with the `Country` key removed entirely. -/
def exRowNoCountryKey : Row :=
  [("First Name", "Jo"), ("Last Name", "Lee"), ("Birthday", ""),
   ("Home Anniversary", "2020-01-01"), ("Address line 1", "1 Ave"),
   ("Address line 2", ""), ("City", "X"), ("State", "Y"),
   ("Zip code", "1")]

/-- `exRow` with the `Address line 2` key removed entirely and
`Address line 2`'s slot never supplied. -/
def exRowNoAddr2Key : Row :=
  [("First Name", "Jo"), ("Last Name", "Lee"), ("Birthday", ""),
   ("Home Anniversary", "2020-01-01"), ("Address line 1", "1 Ave"),
   ("City", "X"), ("State", "Y"), ("Zip code", "1"), ("Country", "Z")]

/-- `exRow` with `City` empty and `Address line 2` filled. -/
def exRowEmptyCity : Row :=
  [("First Name", "Jo"), ("Last Name", "Lee"), ("Birthday", ""),
   ("Home Anniversary", "2020-01-01"), ("Address line 1", "1 Ave"),
   ("Address line 2", "Unit 3"), ("City", ""), ("State", "Y"),
   ("Zip code", "1"), ("Country", "Z")]

/-- The spec's example row with its columns permuted and an unknown
extra field added. -/
def exRowShuffled : Row :=
  [("Phone", "555-0100"), ("Country", "Z"), ("Zip code", "1"), ("State", "Y"),
   ("City", "X"), ("Address line 2", ""), ("Address line 1", "1 Ave"),
   ("Home Anniversary", "2020-01-01"), ("Birthday", ""), ("Last Name", "Lee"),
   ("First Name", "Jo")]

/-- The ten output values of the spec's example row. -/
def exOutVals : List String :=
  ["Jo", "Lee", "", "2020-01-01", "1 Ave", "", "X", "Y", "1", "Z"]

/-- Selects the display name a row outcome contributes to
`contacts_formatted`. -/
def fmtName : RowOutcome → Option String
  | RowOutcome.formatted name _ => some name
  | RowOutcome.skipped _ => none

/-- Selects the display name a row outcome contributes to
`contacts_skipped`. -/
def skipName : RowOutcome → Option String
  | RowOutcome.formatted _ _ => none
  | RowOutcome.skipped name => some name

/-- Selects the edited-file line a row outcome contributes. -/
def fmtLine : RowOutcome → Option String
  | RowOutcome.formatted _ line => some line
  | RowOutcome.skipped _ => none

/-- The expected run result over the two-row input
`[exRow, exRowEmptyCity]` under version B. -/
def exRunPair : RunResult :=
  { num_contacts_orig := 2, num_contacts_formatted := 1, num_contacts_skipped := 1,
    contacts_formatted := ["Jo Lee"], contacts_skipped := ["Jo Lee"],
    outLines := ["Jo,Lee,,2020-01-01,1 Ave,,X,Y,1,Z"] }

/-- The expected run result over the two-row input
`[exRowEmptyCity, exRow]` (rejected row first) under version B. -/
def exRunPairRev : RunResult :=
  { num_contacts_orig := 2, num_contacts_formatted := 1, num_contacts_skipped := 1,
    contacts_formatted := ["Jo Lee"], contacts_skipped := ["Jo Lee"],
    outLines := ["Jo,Lee,,2020-01-01,1 Ave,,X,Y,1,Z"] }

/-! Helper lemmas about `mapME`, `dictGet` and `pyJoin`. -/

theorem mapME_cons_ok {α β : Type} {f : α → Except String β} {a : α} {as : List α}
    {vs : List β} (h : mapME f (a :: as) = Except.ok vs) :
    ∃ v vs', f a = Except.ok v ∧ mapME f as = Except.ok vs' ∧ vs = v :: vs' := by
  cases hfa : f a with
  | error e => simp [mapME, hfa] at h
  | ok v =>
    cases hrest : mapME f as with
    | error e => simp [mapME, hfa, hrest] at h
    | ok vs' =>
      simp [mapME, hfa, hrest] at h
      exact ⟨v, vs', rfl, rfl, h.symm⟩

theorem mapME_ok_length {α β : Type} {f : α → Except String β} :
    ∀ {l : List α} {vs : List β}, mapME f l = Except.ok vs → vs.length = l.length := by
  intro l
  induction l with
  | nil =>
    intro vs h
    injection h with h'
    subst h'
    rfl
  | cons a as ih =>
    intro vs h
    obtain ⟨v, vs', _, hrest, rfl⟩ := mapME_cons_ok h
    simp [ih hrest]

theorem dictGet_ok_specGet {row : Row} {a v : String} (h : dictGet row a = Except.ok v) :
    specGet row a = v := by
  unfold dictGet at h
  unfold specGet
  cases hf : row.find? (fun p => p.1 == a) with
  | none => rw [hf] at h; exact Except.noConfusion h
  | some p => rw [hf] at h; injection h

theorem mapME_ok_vals {row : Row} : ∀ {l : List String} {vs : List String},
    mapME (dictGet row) l = Except.ok vs → vs = l.map (specGet row) := by
  intro l
  induction l with
  | nil =>
    intro vs h
    injection h with h'
    subst h'
    rfl
  | cons a as ih =>
    intro vs h
    obtain ⟨v, vs', hfa, hrest, rfl⟩ := mapME_cons_ok h
    simp [List.map_cons, dictGet_ok_specGet hfa, ih hrest]

theorem mapME_total {α β : Type} {f : α → Except String β} : ∀ {l : List α},
    (∀ a ∈ l, ∃ v, f a = Except.ok v) → ∃ vs, mapME f l = Except.ok vs := by
  intro l
  induction l with
  | nil => intro _; exact ⟨[], rfl⟩
  | cons a as ih =>
    intro h
    obtain ⟨v, hv⟩ := h a (by simp)
    obtain ⟨vs, hvs⟩ := ih (fun b hb => h b (by simp [hb]))
    exact ⟨v :: vs, by simp [mapME, hv, hvs]⟩

theorem mapME_congr {α β : Type} {f g : α → Except String β} : ∀ {l : List α},
    (∀ a ∈ l, f a = g a) → mapME f l = mapME g l := by
  intro l
  induction l with
  | nil => intro _; rfl
  | cons a as ih =>
    intro h
    simp only [mapME, h a (by simp), ih (fun b hb => h b (by simp [hb]))]

theorem dictGet_ok_of_isSome {row : Row} {a : String}
    (h : (row.find? (fun p => p.1 == a)).isSome = true) :
    ∃ v, dictGet row a = Except.ok v := by
  unfold dictGet
  cases hf : row.find? (fun p => p.1 == a) with
  | none => rw [hf] at h; exact absurd h (by decide)
  | some p => exact ⟨p.2, rfl⟩

theorem append_comma_ne_empty (a v : String) : a ++ "," ++ v ≠ "" := by
  intro hcontra
  have hl := congrArg String.length hcontra
  simp [String.length_append] at hl
  exact absurd hl.1.2 (by decide)

theorem pyJoin_go (vs : List String) : ∀ acc : String, acc ≠ "" →
    vs.foldl (fun newVal v => if newVal != "" then newVal ++ "," ++ v else v) acc =
      commaJoin (acc :: vs) := by
  induction vs with
  | nil => intro acc _; rfl
  | cons v vs ih =>
    intro acc hacc
    have hne : (acc != "") = true := bne_iff_ne.mpr hacc
    simp only [List.foldl_cons, hne, if_true]
    rw [ih _ (append_comma_ne_empty acc v)]
    cases vs with
    | nil => rfl
    | cons w ws => simp [commaJoin, String.append_assoc]

theorem pyJoin_eq_commaJoin {v : String} (vs : List String) (h : v ≠ "") :
    pyJoin (v :: vs) = commaJoin (v :: vs) := by
  unfold pyJoin
  simp only [List.foldl_cons]
  have h0 : ((("" : String) != "") = false) := by decide
  rw [h0]
  simp only [Bool.false_eq_true, if_false]
  exact pyJoin_go vs v h

theorem zip_self_map {α β : Type} (g : α → β) : ∀ l : List α,
    l.zip (l.map g) = l.map (fun a => (a, g a)) := by
  intro l
  induction l with
  | nil => rfl
  | cons a as ih => simp [ih]

/-- The decision loop, characterised by the spec-side predicates: when
no `KeyError` escapes, the computed boolean is true exactly for rows
that are mandatory-complete and date-qualified. -/
theorem rowDecision_ok_iff {required eitherOr : List String} {row : Row} {b : Bool}
    (h : rowDecision required eitherOr row = Except.ok b) :
    b = true ↔ (mandatoryComplete required row ∧ dateQualified eitherOr row) := by
  unfold rowDecision at h
  cases hr : mapME (dictGet row) required with
  | error e => rw [hr] at h; exact Except.noConfusion h
  | ok reqVals =>
    simp only [hr] at h
    have hvals := mapME_ok_vals hr
    by_cases hall : reqVals.all (fun v => v != "") = true
    · rw [if_pos hall] at h
      have hmc : mandatoryComplete required row := by
        intro a ha
        have hmem : specGet row a ∈ reqVals := by
          rw [hvals]; exact List.mem_map_of_mem _ ha
        exact bne_iff_ne.mp (List.all_eq_true.mp hall _ hmem)
      cases he : mapME (dictGet row) eitherOr with
      | error e => rw [he] at h; exact Except.noConfusion h
      | ok dateVals =>
        simp only [he] at h
        have hdvals := mapME_ok_vals he
        have hb : dateVals.any (fun v => v != "") = b := by injection h
        constructor
        · intro hbt
          refine ⟨hmc, ?_⟩
          rw [hbt] at hb
          obtain ⟨v, hv, hvne⟩ := List.any_eq_true.mp hb
          rw [hdvals] at hv
          obtain ⟨a, ha, rfl⟩ := List.mem_map.mp hv
          exact ⟨a, ha, bne_iff_ne.mp hvne⟩
        · rintro ⟨_, a, ha, hane⟩
          rw [← hb]
          refine List.any_eq_true.mpr ⟨specGet row a, ?_, bne_iff_ne.mpr hane⟩
          rw [hdvals]; exact List.mem_map_of_mem _ ha
    · rw [if_neg hall] at h
      have hb : b = false := by injection h with h'; exact h'.symm
      subst hb
      simp only [Bool.false_eq_true, false_iff]
      rintro ⟨hmc, _⟩
      refine hall (List.all_eq_true.mpr ?_)
      intro v hv
      rw [hvals] at hv
      obtain ⟨a, ha, rfl⟩ := List.mem_map.mp hv
      exact bne_iff_ne.mpr (hmc a ha)

/-- A completed run is the per-row outcomes of the input sequence in
input order, with the counters and lists accumulated from them. -/
theorem runRows_spec (required eitherOr : List String) :
    ∀ (rows : List Row) (acc r : RunResult),
      runRows required eitherOr acc rows = Except.ok r →
      ∃ os, mapME (processRow required eitherOr) rows = Except.ok os ∧
        r.num_contacts_orig = acc.num_contacts_orig + rows.length ∧
        r.num_contacts_formatted = acc.num_contacts_formatted + (os.filterMap fmtName).length ∧
        r.num_contacts_skipped = acc.num_contacts_skipped + (os.filterMap skipName).length ∧
        r.contacts_formatted = acc.contacts_formatted ++ os.filterMap fmtName ∧
        r.contacts_skipped = acc.contacts_skipped ++ os.filterMap skipName ∧
        r.outLines = acc.outLines ++ os.filterMap fmtLine := by
  intro rows
  induction rows with
  | nil =>
    intro acc r h
    injection h with h'
    subst h'
    exact ⟨[], rfl, rfl, rfl, rfl, by simp [mapME], by simp [mapME], by simp [mapME]⟩
  | cons row rows ih =>
    intro acc r h
    unfold runRows at h
    cases hp : processRow required eitherOr row with
    | error e => rw [hp] at h; exact Except.noConfusion h
    | ok o =>
      rw [hp] at h
      cases o with
      | formatted name line =>
        obtain ⟨os, hos, h1, h2, h3, h4, h5, h6⟩ := ih _ _ h
        refine ⟨RowOutcome.formatted name line :: os, by simp [mapME, hp, hos], ?_, ?_, ?_, ?_, ?_, ?_⟩
        · simp at h1; simp [h1]; omega
        · simp [fmtName, List.filterMap_cons] at h2 ⊢; simp [h2]; omega
        · simp [skipName, List.filterMap_cons] at h3 ⊢; exact h3
        · simp [fmtName, List.filterMap_cons] at h4 ⊢; simp [h4]
        · simp [skipName, List.filterMap_cons] at h5 ⊢; exact h5
        · simp [fmtLine, List.filterMap_cons] at h6 ⊢; simp [h6]
      | skipped name =>
        obtain ⟨os, hos, h1, h2, h3, h4, h5, h6⟩ := ih _ _ h
        refine ⟨RowOutcome.skipped name :: os, by simp [mapME, hp, hos], ?_, ?_, ?_, ?_, ?_, ?_⟩
        · simp at h1; simp [h1]; omega
        · simp [fmtName, List.filterMap_cons] at h2 ⊢; exact h2
        · simp [skipName, List.filterMap_cons] at h3 ⊢; simp [h3]; omega
        · simp [fmtName, List.filterMap_cons] at h4 ⊢; exact h4
        · simp [skipName, List.filterMap_cons] at h5 ⊢; simp [h5]
        · simp [fmtLine, List.filterMap_cons] at h6 ⊢; exact h6

/-- Each outcome contributes to exactly one of the formatted and
skipped lists. -/
theorem filterMap_fmt_skip_length : ∀ os : List RowOutcome,
    (os.filterMap fmtName).length + (os.filterMap skipName).length = os.length := by
  intro os
  induction os with
  | nil => rfl
  | cons o os ih =>
    cases o with
    | formatted name line =>
      simp [fmtName, skipName, List.filterMap_cons] at ih ⊢
      omega
    | skipped name =>
      simp [fmtName, skipName, List.filterMap_cons] at ih ⊢
      omega

/-- The row loop step is total on rows whose mapping yields a value for
every field it looks up. -/
theorem processRow_total {required eitherOr : List String} {row : Row}
    (hreq : ∀ a ∈ required, ∃ v, dictGet row a = Except.ok v)
    (heo : ∀ a ∈ eitherOr, ∃ v, dictGet row a = Except.ok v)
    (hout : ∀ a ∈ attrdict, ∃ v, dictGet row a = Except.ok v) :
    ∃ o, processRow required eitherOr row = Except.ok o := by
  obtain ⟨reqVals, hr⟩ := mapME_total hreq
  obtain ⟨dateVals, he⟩ := mapME_total heo
  obtain ⟨vals, hv⟩ := mapME_total hout
  obtain ⟨fn, hfn⟩ := hout attr_firstname (by simp [attrdict])
  obtain ⟨ln, hln⟩ := hout attr_lastname (by simp [attrdict])
  have hdn : displayName row = Except.ok (fn ++ " " ++ ln) := by
    unfold displayName
    rw [hfn, hln]
  have hpr : projectRow row = Except.ok (pyJoin vals) := by
    unfold projectRow outRecord
    rw [hv]
  have hdec : rowDecision required eitherOr row =
      Except.ok (if reqVals.all (fun v => v != "") then dateVals.any (fun v => v != "")
                 else false) := by
    unfold rowDecision
    simp only [hr, he]
    by_cases hall : reqVals.all (fun v => v != "") = true
    · rw [if_pos hall, if_pos hall]
    · rw [if_neg hall, if_neg hall]
  cases hb : (if reqVals.all (fun v => v != "") then dateVals.any (fun v => v != "")
              else false) with
  | true =>
    rw [hb] at hdec
    exact ⟨RowOutcome.formatted (fn ++ " " ++ ln) (pyJoin vals),
           by simp [processRow, hdec, hpr, hdn]⟩
  | false =>
    rw [hb] at hdec
    exact ⟨RowOutcome.skipped (fn ++ " " ++ ln), by simp [processRow, hdec, hdn]⟩

/-- The row loop step depends on the row only through the values the
schema fields look up: extra unknown fields and the physical order of
the columns are irrelevant. -/
theorem processRow_congr {required eitherOr : List String} {row row' : Row}
    (hreqsub : ∀ a ∈ required, a ∈ attrdict) (heosub : ∀ a ∈ eitherOr, a ∈ attrdict)
    (hagree : ∀ a ∈ attrdict, dictGet row' a = dictGet row a) :
    processRow required eitherOr row' = processRow required eitherOr row := by
  have e1 : mapME (dictGet row') required = mapME (dictGet row) required :=
    mapME_congr (fun a ha => hagree a (hreqsub a ha))
  have e2 : mapME (dictGet row') eitherOr = mapME (dictGet row) eitherOr :=
    mapME_congr (fun a ha => hagree a (heosub a ha))
  have e3 : mapME (dictGet row') attrdict = mapME (dictGet row) attrdict :=
    mapME_congr (fun a ha => hagree a ha)
  have e4 : dictGet row' attr_firstname = dictGet row attr_firstname :=
    hagree _ (by simp [attrdict])
  have e5 : dictGet row' attr_lastname = dictGet row attr_lastname :=
    hagree _ (by simp [attrdict])
  simp only [processRow, rowDecision, projectRow, outRecord, displayName, e1, e2, e3, e4, e5]

/-- C1: for every input row on which the decision completes, the row is
accepted if and only if it is mandatory-complete (every field of the
mandatory set non-empty) and date-qualified (at least one of Birthday,
Home Anniversary non-empty); otherwise it is rejected. -/
theorem c1_accept_iff (required eitherOr : List String) (row : Row) (b : Bool)
    (h : rowDecision required eitherOr row = Except.ok b) :
    b = true ↔ (mandatoryComplete required row ∧ dateQualified eitherOr row) :=
  rowDecision_ok_iff h

/-- Witness for C1 at the spec's example row under version B's
mandatory set. -/
theorem c1_accept_iff_witness :
    mandatoryComplete ScrubMigrate.attrdict_required exRow ∧
      dateQualified attrdict_eitherOr exRow :=
  (c1_accept_iff ScrubMigrate.attrdict_required attrdict_eitherOr exRow true rfl).mp rfl

/-- C2 counterexample: on a well-formed row mapping that lacks the
schema key `Country` entirely, the per-row procedure does not return a
decision at all; it raises `KeyError: Country` (version A crashes,
version B's bare `except` fails the run), instead of treating the
missing column as empty. -/
theorem c2_counterexample :
    processRow ScrubMigrate.attrdict_required attrdict_eitherOr exRowNoCountryKey =
      Except.error "Country" := rfl

/-- C2 (amended): the per-row procedure is total on any row mapping
that has a value for every schema field (a present-but-empty value is
treated as missing, which also covers `DictReader`'s `None` fill for
short data rows); unknown extra fields and input column order are
ignored.  A row mapping lacking a schema field key entirely instead
raises `KeyError`. -/
theorem c2_amended_totality (row row' : Row)
    (hkeys : ∀ a ∈ attrdict, (row.find? (fun p => p.1 == a)).isSome = true)
    (hagree : ∀ a ∈ attrdict, dictGet row' a = dictGet row a) :
    (∃ o, processRow ScrubAndMigrate.attrdict_required attrdict_eitherOr row = Except.ok o) ∧
    (∃ o, processRow ScrubMigrate.attrdict_required attrdict_eitherOr row = Except.ok o) ∧
    processRow ScrubAndMigrate.attrdict_required attrdict_eitherOr row' =
      processRow ScrubAndMigrate.attrdict_required attrdict_eitherOr row ∧
    processRow ScrubMigrate.attrdict_required attrdict_eitherOr row' =
      processRow ScrubMigrate.attrdict_required attrdict_eitherOr row := by
  have hex : ∀ a ∈ attrdict, ∃ v, dictGet row a = Except.ok v :=
    fun a ha => dictGet_ok_of_isSome (hkeys a ha)
  have hsubA : ∀ a ∈ ScrubAndMigrate.attrdict_required, a ∈ attrdict := by decide
  have hsubB : ∀ a ∈ ScrubMigrate.attrdict_required, a ∈ attrdict := by decide
  have hsubE : ∀ a ∈ attrdict_eitherOr, a ∈ attrdict := by decide
  exact ⟨processRow_total (fun a ha => hex a (hsubA a ha))
           (fun a ha => hex a (hsubE a ha)) hex,
         processRow_total (fun a ha => hex a (hsubB a ha))
           (fun a ha => hex a (hsubE a ha)) hex,
         processRow_congr hsubA hsubE hagree,
         processRow_congr hsubB hsubE hagree⟩

/-- Witness for C2 (amended): permuting the columns and adding an
unknown field leaves the row outcome unchanged. -/
theorem c2_amended_totality_witness :
    processRow ScrubMigrate.attrdict_required attrdict_eitherOr exRowShuffled =
      processRow ScrubMigrate.attrdict_required attrdict_eitherOr exRow :=
  (c2_amended_totality exRow exRowShuffled (by decide)
    (by
      intro a ha
      simp [attrdict, attr_firstname, attr_lastname, attr_birthday, attr_anniversary,
            attr_address1, attr_address2, attr_city, attr_state, attr_zip,
            attr_country] at ha
      rcases ha with rfl | rfl | rfl | rfl | rfl | rfl | rfl | rfl | rfl | rfl <;> rfl)).2.2.2

/-- C3 counterexample: in version A `attrdict_required` also contains
`Address line 2`, so the spec's example row (all seven spec-mandatory
fields non-empty, a date present, `Address line 2` empty) is rejected
there, not accepted. -/
theorem c3_counterexample :
    attr_address2 ∈ ScrubAndMigrate.attrdict_required ∧
    rowDecision ScrubAndMigrate.attrdict_required attrdict_eitherOr exRow =
      Except.ok false := ⟨by decide, rfl⟩

/-- C3 (amended): in version B the mandatory set is exactly the seven
fields First Name, Last Name, Address line 1, City, State, Zip code,
Country, and a row with those seven non-empty, a date present and
`Address line 2` empty is accepted; in version A `attrdict_required`
additionally contains `Address line 2`, so the same row is rejected. -/
theorem c3_mandatory_sets :
    ScrubMigrate.attrdict_required =
      [attr_firstname, attr_lastname, attr_address1, attr_city, attr_state,
       attr_zip, attr_country] ∧
    attr_address2 ∉ ScrubMigrate.attrdict_required ∧
    rowDecision ScrubMigrate.attrdict_required attrdict_eitherOr exRow = Except.ok true ∧
    attr_address2 ∈ ScrubAndMigrate.attrdict_required ∧
    rowDecision ScrubAndMigrate.attrdict_required attrdict_eitherOr exRow = Except.ok false :=
  ⟨rfl, by decide, rfl, by decide, rfl⟩

/-- C9 counterexample: an input none of whose lines contains either
marker substring is rewritten with exactly its original content, so a
run can leave the original file's content unchanged. -/
theorem c9_counterexample :
    step1Filter ["First Name,Last Name", "Jo,Lee"] = ["First Name,Last Name", "Jo,Lee"] := rfl

/-- C9 (amended): STEP 1 rewrites the original file in place, deleting
every line that contains "Key Dates" or "Select Y if applies" anywhere
in the line, including data rows containing those substrings; the
content is left unchanged exactly when no line contains either
substring. -/
theorem c9_step1_rewrite (lines : List String) :
    (∀ l ∈ lines, strContains l "Key Dates" = true → l ∉ step1Filter lines) ∧
    (∀ l ∈ lines, strContains l "Select Y if applies" = true → l ∉ step1Filter lines) ∧
    (step1Filter lines = lines ↔
      ∀ l ∈ lines, strContains l "Key Dates" = false ∧
        strContains l "Select Y if applies" = false) := by
  refine ⟨?_, ?_, ?_⟩
  · intro l _ hkd hmem
    have := (List.mem_filter.mp hmem).2
    simp [hkd] at this
  · intro l _ hsel hmem
    have := (List.mem_filter.mp hmem).2
    simp [hsel] at this
  · unfold step1Filter
    rw [List.filter_eq_self]
    constructor
    · intro h l hl
      have := h l hl
      constructor
      · cases hv : strContains l "Key Dates" with
        | false => rfl
        | true => simp [hv] at this
      · cases hv : strContains l "Select Y if applies" with
        | false => rfl
        | true => simp [hv] at this
    · intro h l hl
      obtain ⟨h1, h2⟩ := h l hl
      simp [h1, h2]

/-- Witness for C9 (amended): a data row containing "Key Dates" inside
a field value is deleted by the STEP 1 rewrite. -/
theorem c9_step1_rewrite_witness :
    "Jo,Lee,Key Dates Ave" ∉ step1Filter ["First Name,Last Name", "Jo,Lee,Key Dates Ave"] :=
  (c9_step1_rewrite ["First Name,Last Name", "Jo,Lee,Key Dates Ave"]).1
    "Jo,Lee,Key Dates Ave" (by simp) (by decide)

/-- C4: for every completed run over any input sequence, the formatted
count plus the skipped count equals the total input record count, and
each processed row is counted in exactly one of the two. -/
theorem c4_counts (required eitherOr : List String) (rows : List Row) (r : RunResult)
    (h : runModel required eitherOr rows = Except.ok r) :
    r.num_contacts_formatted + r.num_contacts_skipped = r.num_contacts_orig ∧
    r.num_contacts_orig = rows.length := by
  obtain ⟨os, hos, h1, h2, h3, _, _, _⟩ := runRows_spec required eitherOr rows initResult r h
  have hlen : os.length = rows.length := mapME_ok_length hos
  have hsplit := filterMap_fmt_skip_length os
  simp [initResult] at h1 h2 h3
  omega

/-- Witness for C4 on a concrete two-row run with one accepted and one
rejected row. -/
theorem c4_counts_witness :
    exRunPair.num_contacts_formatted + exRunPair.num_contacts_skipped =
      exRunPair.num_contacts_orig ∧
    exRunPair.num_contacts_orig = ([exRow, exRowEmptyCity] : List Row).length :=
  c4_counts ScrubMigrate.attrdict_required attrdict_eitherOr [exRow, exRowEmptyCity]
    exRunPair rfl

/-- C10: a completed run preserves input order: the formatted list, the
skipped list and the sequence of lines appended to the edited file are
exactly the order-preserving projections of the per-row outcomes taken
in input-sequence order. -/
theorem c10_order (required eitherOr : List String) (rows : List Row) (r : RunResult)
    (h : runModel required eitherOr rows = Except.ok r) :
    ∃ os, mapME (processRow required eitherOr) rows = Except.ok os ∧
      r.contacts_formatted = os.filterMap fmtName ∧
      r.contacts_skipped = os.filterMap skipName ∧
      r.outLines = os.filterMap fmtLine := by
  obtain ⟨os, hos, _, _, _, h4, h5, h6⟩ := runRows_spec required eitherOr rows initResult r h
  simp [initResult] at h4 h5 h6
  exact ⟨os, hos, h4, h5, h6⟩

/-- Witness for C10 on a concrete two-row run. -/
theorem c10_order_witness :
    ∃ os, mapME (processRow ScrubMigrate.attrdict_required attrdict_eitherOr)
        [exRowEmptyCity, exRow] = Except.ok os ∧
      exRunPairRev.contacts_formatted = os.filterMap fmtName ∧
      exRunPairRev.contacts_skipped = os.filterMap skipName ∧
      exRunPairRev.outLines = os.filterMap fmtLine :=
  c10_order ScrubMigrate.attrdict_required attrdict_eitherOr [exRowEmptyCity, exRow]
    exRunPairRev rfl

/-- An accepted row has a non-empty first name whenever the first-name
field is among the required attributes. -/
theorem accepted_firstname_ne {required eitherOr : List String} {row : Row}
    (hmem : attr_firstname ∈ required)
    (hacc : rowDecision required eitherOr row = Except.ok true) :
    specGet row attr_firstname ≠ "" :=
  ((rowDecision_ok_iff hacc).mp rfl).1 attr_firstname hmem

/-- When the ten lookups succeed and the first name is non-empty, the
written line is the plain comma join of the ten field values in
`attrdict` order. -/
theorem accepted_projection {row : Row} {vs : List String}
    (hfn : specGet row attr_firstname ≠ "")
    (ho : outRecord row = Except.ok vs) :
    vs = attrdict.map (specGet row) ∧ projectRow row = Except.ok (commaJoin vs) := by
  have hvs := mapME_ok_vals ho
  refine ⟨hvs, ?_⟩
  have hshape : vs = specGet row attr_firstname ::
      List.map (specGet row)
        [attr_lastname, attr_birthday, attr_anniversary, attr_address1, attr_address2,
         attr_city, attr_state, attr_zip, attr_country] := by
    rw [hvs]; rfl
  rw [hshape] at ho ⊢
  unfold projectRow
  simp only [ho]
  rw [pyJoin_eq_commaJoin _ hfn]

/-- C6: the output header is exactly the ten schema fields in the fixed
configured order, and every accepted output record is the comma join of
exactly the ten schema-field values in that same order, independent of
the input column order. -/
theorem c6_output_shape (row : Row) (vs : List String)
    (hacc : rowDecision ScrubMigrate.attrdict_required attrdict_eitherOr row = Except.ok true)
    (ho : outRecord row = Except.ok vs) :
    headerLine =
      "First Name,Last Name,Birthday,Home Anniversary,Address line 1,Address line 2,City,State,Zip code,Country" ∧
    vs = attrdict.map (specGet row) ∧
    projectRow row = Except.ok (commaJoin vs) ∧
    ∀ row', (∀ a ∈ attrdict, dictGet row' a = dictGet row a) →
      outRecord row' = outRecord row ∧ projectRow row' = projectRow row := by
  have hfn : specGet row attr_firstname ≠ "" :=
    accepted_firstname_ne (by simp [ScrubMigrate.attrdict_required]) hacc
  obtain ⟨hvs, hproj⟩ := accepted_projection hfn ho
  refine ⟨rfl, hvs, hproj, ?_⟩
  intro row' hagree
  have e3 : mapME (dictGet row') attrdict = mapME (dictGet row) attrdict :=
    mapME_congr (fun a ha => hagree a ha)
  constructor
  · unfold outRecord
    exact e3
  · unfold projectRow outRecord
    rw [e3]

/-- Witness for C6: the accepted example row's output line. -/
theorem c6_output_shape_witness :
    projectRow exRow = Except.ok (commaJoin exOutVals) :=
  (c6_output_shape exRow exOutVals rfl rfl).2.2.1

/-- C7 counterexample: a row that version B accepts but whose mapping
lacks the `Address line 2` key entirely makes the projection raise
`KeyError: Address line 2` instead of writing an empty string for the
absent field. -/
theorem c7_counterexample :
    rowDecision ScrubMigrate.attrdict_required attrdict_eitherOr exRowNoAddr2Key =
      Except.ok true ∧
    projectRow exRowNoAddr2Key = Except.error "Address line 2" := ⟨rfl, rfl⟩

/-- C7 (amended): for each accepted record whose ten schema lookups
succeed, the output record is exactly the output-order field values
taken verbatim from the source row, with no trimming or normalization
(a present-but-empty field contributes the empty string); a schema
field absent from the row mapping instead raises `KeyError` during
projection. -/
theorem c7_verbatim (row : Row) (vs : List String)
    (hacc : rowDecision ScrubMigrate.attrdict_required attrdict_eitherOr row = Except.ok true)
    (ho : outRecord row = Except.ok vs) :
    vs = attrdict.map (specGet row) ∧
    projectRow row = Except.ok (commaJoin (attrdict.map (specGet row))) := by
  have hfn : specGet row attr_firstname ≠ "" :=
    accepted_firstname_ne (by simp [ScrubMigrate.attrdict_required]) hacc
  obtain ⟨hvs, hproj⟩ := accepted_projection hfn ho
  exact ⟨hvs, by rw [← hvs]; exact hproj⟩

/-- Witness for C7 (amended) at the spec's example row. -/
theorem c7_verbatim_witness :
    projectRow exRow = Except.ok (commaJoin (attrdict.map (specGet exRow))) :=
  (c7_verbatim exRow exOutVals rfl rfl).2

/-- Membership of a `missing` message in the required-loop messages. -/
theorem mem_missing_filterMap {row : Row} {required : List String} {a : String} :
    LogMsg.missing a ∈ required.filterMap
        (fun b => if specGet row b == "" then some (LogMsg.missing b) else none) ↔
      (a ∈ required ∧ specGet row a = "") := by
  rw [List.mem_filterMap]
  constructor
  · rintro ⟨b, hb, hfb⟩
    by_cases hsb : (specGet row b == "") = true
    · rw [if_pos hsb] at hfb
      have hba : b = a := by
        injection Option.some.inj hfb
      subst hba
      exact ⟨hb, eq_of_beq hsb⟩
    · rw [if_neg hsb] at hfb
      exact Option.noConfusion hfb
  · rintro ⟨ha, he⟩
    exact ⟨a, ha, by rw [if_pos (beq_iff_eq.mpr he)]⟩

/-- The required-loop messages contain no `noDates` message. -/
theorem noDates_not_mem_missing {row : Row} {required : List String} :
    LogMsg.noDates ∉ required.filterMap
      (fun b => if specGet row b == "" then some (LogMsg.missing b) else none) := by
  rw [List.mem_filterMap]
  rintro ⟨b, _, hfb⟩
  by_cases hsb : (specGet row b == "") = true
  · rw [if_pos hsb] at hfb
    exact LogMsg.noConfusion (Option.some.inj hfb)
  · rw [if_neg hsb] at hfb
    exact Option.noConfusion hfb

/-- The required-loop messages contain no `dateFound` message. -/
theorem dateFound_not_mem_missing {row : Row} {required : List String} {a : String} :
    LogMsg.dateFound a ∉ required.filterMap
      (fun b => if specGet row b == "" then some (LogMsg.missing b) else none) := by
  rw [List.mem_filterMap]
  rintro ⟨b, _, hfb⟩
  by_cases hsb : (specGet row b == "") = true
  · rw [if_pos hsb] at hfb
    exact LogMsg.noConfusion (Option.some.inj hfb)
  · rw [if_neg hsb] at hfb
    exact Option.noConfusion hfb

/-- The messages of the required loop, rewritten from the zip form to a
plain `filterMap` over the required list. -/
theorem missingMsgs_eq {row : Row} {required : List String} :
    (required.zip (required.map (specGet row))).filterMap
        (fun p => if p.2 == "" then some (LogMsg.missing p.1) else none) =
      required.filterMap
        (fun b => if specGet row b == "" then some (LogMsg.missing b) else none) := by
  rw [zip_self_map, List.filterMap_map]
  rfl

/-- C5 counterexample: version A records a rejected row (here: `City`
empty) only by its display name; the whole run result for that input
contains the bare string "Jo Lee" and no reason, no field name, and no
`MissingMandatoryField`/`NoQualifyingDate` marker of any kind. -/
theorem c5_counterexample :
    runModel ScrubAndMigrate.attrdict_required attrdict_eitherOr [exRowEmptyCity] =
      Except.ok { num_contacts_orig := 1, num_contacts_formatted := 0,
                  num_contacts_skipped := 1, contacts_formatted := [],
                  contacts_skipped := ["Jo Lee"], outLines := [] } ∧
    strContains "Jo Lee" "Missing" = false ∧
    strContains "Jo Lee" "City" = false ∧
    strContains "Jo Lee" "No dates" = false := ⟨rfl, rfl, rfl, rfl⟩

/-- C5 (amended): in version B every rejected row is logged (via
`logger.info`, visible in the log file only in test mode) with its
reason: one "Missing {attr}" message for exactly each required field
that is empty, emitted regardless of the date fields, and a
"No dates found" message exactly when all required fields are non-empty
and both date fields are empty; a rejected row always gets at least one
such message and never a "date found" message.  Version A records
rejected rows by display name only, with no reason. -/
theorem c5_reasons (required eitherOr : List String) (row : Row) (msgs : List LogMsg)
    (hl : rowLogs required eitherOr row = Except.ok msgs)
    (hrej : rowDecision required eitherOr row = Except.ok false) :
    msgs ≠ [] ∧
    (∀ a, LogMsg.missing a ∈ msgs ↔ (a ∈ required ∧ specGet row a = "")) ∧
    (LogMsg.noDates ∈ msgs ↔
      (mandatoryComplete required row ∧ ∀ a ∈ eitherOr, specGet row a = "")) ∧
    (∀ a, LogMsg.dateFound a ∉ msgs) := by
  unfold rowLogs at hl
  unfold rowDecision at hrej
  cases hr : mapME (dictGet row) required with
  | error e => rw [hr] at hl; exact Except.noConfusion hl
  | ok reqVals =>
    simp only [hr] at hl hrej
    have hvals := mapME_ok_vals hr
    subst hvals
    by_cases hall : ((required.map (specGet row)).all (fun v => v != "")) = true
    · rw [if_pos hall] at hl hrej
      have hmc : mandatoryComplete required row := by
        intro a ha
        exact bne_iff_ne.mp (List.all_eq_true.mp hall _ (List.mem_map_of_mem _ ha))
      cases he : mapME (dictGet row) eitherOr with
      | error e => rw [he] at hl; exact Except.noConfusion hl
      | ok dateVals =>
        simp only [he] at hl hrej
        have hdvals := mapME_ok_vals he
        subst hdvals
        have hany : ((eitherOr.map (specGet row)).any (fun v => v != "")) = false := by
          cases hb : (eitherOr.map (specGet row)).any (fun v => v != "") with
          | false => rfl
          | true => rw [hb] at hrej; exact absurd (Except.ok.inj hrej) (by decide)
        have hdates : ∀ a ∈ eitherOr, specGet row a = "" := by
          intro a ha
          by_contra hne
          have : ((eitherOr.map (specGet row)).any (fun v => v != "")) = true :=
            List.any_eq_true.mpr ⟨specGet row a, List.mem_map_of_mem _ ha, bne_iff_ne.mpr hne⟩
          rw [this] at hany
          exact Bool.noConfusion hany
        rw [hany] at hl
        have hmissnil : (required.zip (required.map (specGet row))).filterMap
            (fun p => if p.2 == "" then some (LogMsg.missing p.1) else none) = [] := by
          rw [missingMsgs_eq]
          rw [List.filterMap_eq_nil_iff]
          intro b hb
          rw [if_neg]
          intro hsb
          exact absurd (eq_of_beq hsb) (hmc b hb)
        have hdatenil : (eitherOr.zip (eitherOr.map (specGet row))).filterMap
            (fun p => if p.2 != "" then some (LogMsg.dateFound p.1) else none) = [] := by
          rw [zip_self_map, List.filterMap_map]
          rw [List.filterMap_eq_nil_iff]
          intro b hb
          have hsb : specGet row b = "" := hdates b hb
          simp [Function.comp, hsb]
        simp only [hmissnil, hdatenil, Bool.false_eq_true, if_false, List.nil_append] at hl
        have hmsgs : msgs = [LogMsg.noDates] := (Except.ok.inj hl).symm
        subst hmsgs
        refine ⟨by simp, ?_, ?_, by simp⟩
        · intro a
          simp only [List.mem_singleton]
          constructor
          · intro hmm
            exact absurd hmm (by simp)
          · rintro ⟨ha, he2⟩
            exact absurd he2 (hmc a ha)
        · simp only [List.mem_singleton]
          constructor
          · intro _
            exact ⟨hmc, hdates⟩
          · intro _
            trivial
    · rw [if_neg hall] at hl
      have hmsgs : msgs = required.filterMap
          (fun b => if specGet row b == "" then some (LogMsg.missing b) else none) := by
        rw [← missingMsgs_eq]
        exact (Except.ok.inj hl).symm
      subst hmsgs
      have hex : ∃ a ∈ required, specGet row a = "" := by
        by_contra hno
        push_neg at hno
        refine hall (List.all_eq_true.mpr ?_)
        intro v hv
        obtain ⟨a, ha, rfl⟩ := List.mem_map.mp hv
        exact bne_iff_ne.mpr (hno a ha)
      obtain ⟨a0, ha0, he0⟩ := hex
      have hmem0 : LogMsg.missing a0 ∈ required.filterMap
          (fun b => if specGet row b == "" then some (LogMsg.missing b) else none) :=
        mem_missing_filterMap.mpr ⟨ha0, he0⟩
      refine ⟨?_, ?_, ?_, ?_⟩
      · intro hnil
        rw [hnil] at hmem0
        exact absurd hmem0 (List.not_mem_nil _)
      · intro a
        exact mem_missing_filterMap
      · constructor
        · intro hmm
          exact absurd hmm noDates_not_mem_missing
        · rintro ⟨hmc, _⟩
          exact absurd he0 (hmc a0 ha0)
      · intro a
        exact dateFound_not_mem_missing

/-- Witness for C5 (amended): a rejected row (City empty) gets a
non-empty reason log. -/
theorem c5_reasons_witness : ([LogMsg.missing "City"] : List LogMsg) ≠ [] :=
  (c5_reasons ScrubMigrate.attrdict_required attrdict_eitherOr exRowEmptyCity
    [LogMsg.missing "City"] rfl rfl).1

/-- C8: the filter is idempotent on its accepted output: re-reading an
accepted record as a fresh row whose fields are exactly the ten output
fields with their output values yields a row that is accepted again and
projects to the identical output record and line, so the accepted
output is a fixed point of the transformation. -/
theorem c8_fixed_point (row : Row) (vs : List String)
    (hacc : rowDecision ScrubMigrate.attrdict_required attrdict_eitherOr row = Except.ok true)
    (ho : outRecord row = Except.ok vs) :
    rowDecision ScrubMigrate.attrdict_required attrdict_eitherOr (attrdict.zip vs) =
      Except.ok true ∧
    outRecord (attrdict.zip vs) = Except.ok vs ∧
    projectRow (attrdict.zip vs) = projectRow row := by
  have ho0 := ho
  unfold outRecord at ho
  simp only [attrdict] at ho
  obtain ⟨v1, t1, h1, hr1, rfl⟩ := mapME_cons_ok ho
  obtain ⟨v2, t2, h2, hr2, rfl⟩ := mapME_cons_ok hr1
  obtain ⟨v3, t3, h3, hr3, rfl⟩ := mapME_cons_ok hr2
  obtain ⟨v4, t4, h4, hr4, rfl⟩ := mapME_cons_ok hr3
  obtain ⟨v5, t5, h5, hr5, rfl⟩ := mapME_cons_ok hr4
  obtain ⟨v6, t6, h6, hr6, rfl⟩ := mapME_cons_ok hr5
  obtain ⟨v7, t7, h7, hr7, rfl⟩ := mapME_cons_ok hr6
  obtain ⟨v8, t8, h8, hr8, rfl⟩ := mapME_cons_ok hr7
  obtain ⟨v9, t9, h9, hr9, rfl⟩ := mapME_cons_ok hr8
  obtain ⟨v10, t10, h10, hr10, rfl⟩ := mapME_cons_ok hr9
  have ht : t10 = [] := by
    injection hr10 with h'
    exact h'.symm
  subst ht
  have hreq : mapME (dictGet row) ScrubMigrate.attrdict_required =
      Except.ok [v1, v2, v5, v7, v8, v9, v10] := by
    simp only [ScrubMigrate.attrdict_required, mapME, h1, h2, h5, h7, h8, h9, h10]
  have heo : mapME (dictGet row) attrdict_eitherOr = Except.ok [v3, v4] := by
    simp only [attrdict_eitherOr, mapME, h3, h4]
  unfold rowDecision at hacc
  simp only [hreq, heo] at hacc
  by_cases hall : ([v1, v2, v5, v7, v8, v9, v10].all (fun v => v != "")) = true
  · rw [if_pos hall] at hacc
    have hany : ([v3, v4].any (fun v => v != "")) = true := Except.ok.inj hacc
    have houtz : outRecord (attrdict.zip [v1, v2, v3, v4, v5, v6, v7, v8, v9, v10]) =
        Except.ok [v1, v2, v3, v4, v5, v6, v7, v8, v9, v10] := rfl
    refine ⟨?_, houtz, ?_⟩
    · show (if ([v1, v2, v5, v7, v8, v9, v10].all (fun v => v != "")) = true
            then Except.ok (([v3, v4]).any (fun v => v != ""))
            else Except.ok false) = Except.ok true
      rw [if_pos hall, hany]
    · unfold projectRow
      simp only [houtz, ho0]
  · rw [if_neg hall] at hacc
    exact absurd (Except.ok.inj hacc) (by decide)

/-- Witness for C8: the accepted example row's output record re-read as
a row is itself an accepted record with the same output values. -/
theorem c8_fixed_point_witness :
    outRecord (attrdict.zip exOutVals) = Except.ok exOutVals :=
  (c8_fixed_point exRow exOutVals rfl rfl).2.1
